import Mathlib

/-!
Verification of the image-delivery pipeline of `slack-mcp-server`
(`pkg/handler/images.go` and friends).

The Go source is shallowly embedded: raw bytes are `List Nat` (each entry a
byte value), Go strings are Lean `String` or `List Char`, Go `int` is `Int`
(with `Nat` where the value is a length), Go maps are association lists with
replace-on-insert semantics, and external collaborators (the authenticated
Slack download client `SlackFileDownloader.GetFileContext`, and the
`image/png` + `image/jpeg` standard-library codecs used by
`compressPNGToJPEG`) are oracle parameters, so every theorem quantifies over
their behavior.
-/

namespace SlackImages

/-! ## Constants (`pkg/handler/images.go`, `const` block) -/

/-- `MaxImageSize = 3932160` — 3.75MB, stays under 5MB after base64 encoding. -/
def MaxImageSize : Nat := 3932160

/-- `MaxImagesPerCall = 10` — maximum images per tool call. -/
def MaxImagesPerCall : Nat := 10

/-- `MaxConcurrentDownloads = 3` — concurrent download limit. -/
def MaxConcurrentDownloads : Nat := 3

/-- `MaxInlineImageBudget = 750 * 1024` — raw-byte budget for inline images. -/
def MaxInlineImageBudget : Nat := 750 * 1024

/-- `DefaultJPEGQuality = 80` — first attempt quality. -/
def DefaultJPEGQuality : Nat := 80

/-- `MinJPEGQuality = 40` — lowest quality to try. -/
def MinJPEGQuality : Nat := 40

/-- `JPEGQualityStep = 20` — reduction per attempt. -/
def JPEGQualityStep : Nat := 20

/-! ## Byte-level helpers -/

/-- The bytes of an ASCII string literal, as Go sees them. -/
def strBytes (s : String) : List Nat := s.toList.map Char.toNat

/-- Byte-wise ASCII lowercasing.  Models Go `strings.ToLower` for the searches
below: all needles are ASCII, and Go's UTF-8 handling (invalid bytes become
U+FFFD) can neither create nor destroy an occurrence of an ASCII needle. -/
def toLowerByte (b : Nat) : Nat :=
  if 65 ≤ b ∧ b ≤ 90 then b + 32 else b

/-- `lowerBytes` applies `toLowerByte` to every byte. -/
def lowerBytes (bs : List Nat) : List Nat := bs.map toLowerByte

/-- Models Go `strings.Contains` on raw bytes: some position of `hay` starts
an occurrence of `needle`. -/
def bytesContain (hay needle : List Nat) : Bool :=
  (List.range (hay.length + 1)).any fun i => needle.isPrefixOf (hay.drop i)

/-! ## `isValidImageData` (magic-byte classification) -/

/-- Translation of `isValidImageData` (`images.go:677-703`): fewer than 8
bytes is invalid; otherwise test the PNG 4-byte lead-in, the JPEG 3-byte
lead-in, the `GIF` prefix, or `RIFF`/`WEBP` at offsets 0 and 8. -/
def isValidImageData (data : List Nat) : Bool :=
  if data.length < 8 then false
  else if data.getD 0 0 == 0x89 && data.getD 1 0 == 0x50 &&
          data.getD 2 0 == 0x4E && data.getD 3 0 == 0x47 then true
  else if data.getD 0 0 == 0xFF && data.getD 1 0 == 0xD8 &&
          data.getD 2 0 == 0xFF then true
  else if decide (6 ≤ data.length) && data.take 3 == strBytes "GIF" then true
  else if decide (12 ≤ data.length) && data.take 4 == strBytes "RIFF" &&
          (data.drop 8).take 4 == strBytes "WEBP" then true
  else false

/-! ## `isHTMLContent` (HTML detection) -/

/-- The first scan of `isHTMLContent`: the first `min 500 len` bytes,
lowercased, contain one of the HTML opening markers. -/
def hasHTMLMarkers (data : List Nat) : Bool :=
  let front := lowerBytes (data.take (min 500 data.length))
  bytesContain front (strBytes "<!doctype") ||
  bytesContain front (strBytes "<html") ||
  bytesContain front (strBytes "<head") ||
  bytesContain front (strBytes "<body")

/-- The second scan of `isHTMLContent`: the last 20 bytes, lowercased,
contain a closing `</html>` or `</body>`. -/
def hasHTMLClosers (data : List Nat) : Bool :=
  let back := lowerBytes (data.drop (data.length - 20))
  bytesContain back (strBytes "</html>") || bytesContain back (strBytes "</body>")

/-- Translation of `isHTMLContent` (`images.go:706-729`): data shorter than
15 bytes is never HTML; otherwise run the marker scan on the head, and — only
when the data is longer than 20 bytes — the closing-tag scan on the tail. -/
def isHTMLContent (data : List Nat) : Bool :=
  if data.length < 15 then false
  else if hasHTMLMarkers data then true
  else if 20 < data.length then hasHTMLClosers data
  else false

/-! ## Model of Go `net/url` (`url.Parse` + `URL.Hostname()` / `URL.Path`)

`isAllowedImageHost`, `guessMimeTypeFromURL` and `extractFilenameFromURL`
call the Go standard library's URL parser.  The model below follows
`net/url`'s `Parse`/`parse`/`getScheme`/`parseAuthority`/`parseHost` and
`URL.Hostname()` for `scheme://user@host:port/path?query#fragment` shaped
input: fragment and query are cut first, a scheme is recognized exactly as
`getScheme` does, an authority is taken after `//`, the host is the part of
the authority after the last `@` with a digits-only port stripped, and a
parse failure is `none`.  Restrictions of the model (all yield `none` where
Go may succeed): percent-escapes, bracketed IPv6 literals, and host bytes
outside ASCII alphanumerics and `-._~!$&()*+,;=:` are treated as parse
errors; none of these can produce a hostname matching the Slack allowlist
rule below except through exotic subdomain spellings. -/

/-- ASCII control bytes make `url.Parse` fail (`stringContainsCTLByte`). -/
def isCTL (c : Char) : Bool := c.toNat < 0x20 || c.toNat == 0x7F

/-- Host characters accepted by the model (see `net/url.shouldEscape` for
mode `encodeHost`). -/
def isHostChar (c : Char) : Bool :=
  c.isAlphanum ||
    (['-', '.', '_', '~', '!', '$', '&', '(', ')', '*', '+', ',', ';', '=', ':'].contains c)

/-- Userinfo characters accepted by the model (see `net/url.validUserinfo`). -/
def isUserinfoChar (c : Char) : Bool := isHostChar c || c == '%' || c == '@'

/-- Model of `net/url.getScheme`: `none` is a parse error (leading `:`),
`some ([], orig)` means no scheme, `some (scheme, rest)` a recognized
scheme.  `orig` is the whole input, returned unchanged when no scheme is
found. -/
def getSchemeAux (orig : List Char) (acc : List Char) (atStart : Bool) :
    List Char → Option (List Char × List Char)
  | [] => some ([], orig)
  | c :: cs =>
    if c.isAlpha then getSchemeAux orig (acc ++ [c]) false cs
    else if c.isDigit || c == '+' || c == '-' || c == '.' then
      if atStart then some ([], orig) else getSchemeAux orig (acc ++ [c]) false cs
    else if c == ':' then
      if atStart then none else some (acc, cs)
    else some ([], orig)

/-- Entry point of the `getScheme` model. -/
def getScheme (s : List Char) : Option (List Char × List Char) :=
  getSchemeAux s [] true s

/-- `strings.Cut` at the first occurrence of `c`, keeping the part before. -/
def cutAtChar (s : List Char) (c : Char) : List Char :=
  s.takeWhile (fun x => x ≠ c)

/-- The part of `s` after its last occurrence of `c` (assuming one exists). -/
def afterLastChar (s : List Char) (c : Char) : List Char :=
  (s.reverse.takeWhile (fun x => x ≠ c)).reverse

/-- Model of `net/url.parseHost` combined with `URL.Hostname()`'s
`splitHostPort`: validate the characters, then require the part after the
last `:` (if any) to be all digits — Go rejects an invalid port at parse
time and `Hostname()` strips a valid one. -/
def parseHostModel (host : List Char) : Option (List Char) :=
  if host.any (fun c => ¬ isHostChar c) then none
  else if host.contains ':' then
    let port := afterLastChar host ':'
    if port.all Char.isDigit then
      some (host.take (host.length - port.length - 1))
    else none
  else some host

/-- Model of `url.Parse` returning `(URL.Hostname(), URL.Path)`; `none` is a
parse error.  Follows the branch structure of `net/url.parse`: opaque URLs
(scheme present, rest not starting in `/`) have empty host and path; a
scheme-less first path segment containing `:` is an error; an authority is
parsed only after `//` (and, scheme-less, not `///`). -/
def goURLParse (rawURL : String) : Option (String × String) :=
  let s := cutAtChar rawURL.toList '#'
  if s.any isCTL then none
  else
    match getScheme s with
    | none => none
    | some (scheme, rest) =>
      let rest := cutAtChar rest '?'
      if scheme ≠ [] ∧ ¬ ['/'].isPrefixOf rest then some ("", "")
      else if scheme = [] ∧ ¬ ['/'].isPrefixOf rest ∧ (cutAtChar rest '/').contains ':' then
        none
      else if ['/', '/'].isPrefixOf rest ∧ (scheme ≠ [] ∨ ¬ ['/', '/', '/'].isPrefixOf rest) then
        let authority := (rest.drop 2).takeWhile (fun c => c ≠ '/')
        let path := rest.drop (2 + authority.length)
        let hostPart := if authority.contains '@' then afterLastChar authority '@' else authority
        let userinfo := authority.take (authority.length - hostPart.length - 1)
        if authority.contains '@' ∧ userinfo.any (fun c => ¬ isUserinfoChar c) then none
        else
          match parseHostModel hostPart with
          | none => none
          | some host => some (String.mk host, String.mk path)
      else some ("", String.mk rest)

/-! ## `isAllowedImageHost` and friends -/

/-- `allowedImageHosts` (`images.go:466-470`), as the list of keys of the Go
set-valued map. -/
def allowedImageHosts : List String :=
  ["files.slack.com", "slack-edge.com", "avatars.slack-edge.com"]

/-- `supportedImageMimeTypes` (`images.go:473-478`). -/
def supportedImageMimeTypes : List String :=
  ["image/png", "image/jpeg", "image/gif", "image/webp"]

/-- Model of Go `strings.HasSuffix`. -/
def goHasSuffix (s pat : String) : Bool := pat.toList.isSuffixOf s.toList

/-- Translation of `isAllowedImageHost` (`images.go:482-503`): parse the URL
(failure rejects), take the hostname, accept on an exact allowlist match or
when the hostname ends with `"." + allowed` for some allowlist entry. -/
def isAllowedImageHost (rawURL : String) : Bool :=
  match goURLParse rawURL with
  | none => false
  | some (host, _) =>
    if allowedImageHosts.contains host then true
    else allowedImageHosts.any fun allowed => goHasSuffix host ("." ++ allowed)

/-- Model of Go `strings.TrimSpace` (ASCII whitespace). -/
def goTrimSpace (s : String) : String :=
  String.mk (((s.toList.dropWhile Char.isWhitespace).reverse.dropWhile
    Char.isWhitespace).reverse)

/-- Translation of `isImageMimeType` (`images.go:506-516`): trim, drop
parameters after the first `;` (and trim again), lowercase, then test
membership in the supported set. -/
def isImageMimeType (mimeType : String) : Bool :=
  let m := goTrimSpace mimeType
  let m := if m.toList.contains ';' then
      goTrimSpace (String.mk (m.toList.takeWhile (fun c => c ≠ ';')))
    else m
  let m := String.mk (m.toList.map Char.toLower)
  supportedImageMimeTypes.contains m

/-- Translation of `guessMimeTypeFromURL` (`images.go:599-620`): parse
failure gives `""`; otherwise switch on the lowercased path's extension,
defaulting to `image/png`. -/
def guessMimeTypeFromURL (rawURL : String) : String :=
  match goURLParse rawURL with
  | none => ""
  | some (_, path) =>
    let p := String.mk (path.toList.map Char.toLower)
    if goHasSuffix p ".png" then "image/png"
    else if goHasSuffix p ".jpg" || goHasSuffix p ".jpeg" then "image/jpeg"
    else if goHasSuffix p ".gif" then "image/gif"
    else if goHasSuffix p ".webp" then "image/webp"
    else "image/png"

/-- Translation of `extractFilenameFromURL` (`images.go:623-638`): parse
failure gives `"image"`; otherwise the non-empty part after the last `/` of
the path, else `"image"`. -/
def extractFilenameFromURL (rawURL : String) : String :=
  match goURLParse rawURL with
  | none => "image"
  | some (_, path) =>
    let cs := path.toList
    if cs.contains '/' then
      let filename := afterLastChar cs '/'
      if filename ≠ [] then String.mk filename else "image"
    else "image"

/-! ## `CompressImageIfNeeded` (Budget Compressor)

`compressPNGToJPEG` decodes PNG bytes and re-encodes them as JPEG at a given
quality using the Go standard-library codecs; it is modelled by an oracle
`enc : List Nat → Nat → Option (List Nat)` (bytes, quality ↦ encoded bytes,
`none` on decode/encode failure), which every theorem quantifies over. -/

/-- `CompressImageResult` (`images.go:920-926`). -/
structure CompressImageResult where
  data : List Nat
  mimeType : String
  wasConverted : Bool
  originalSize : Nat
  finalSize : Nat
  deriving Repr, DecidableEq

/-- The quality-ladder loop body of `CompressImageIfNeeded`
(`images.go:969-983`): walk the quality list; on encode failure try the next
quality; on success accept when the result fits the budget or the quality is
`MinJPEGQuality`; `none` when the loop falls through. -/
def tryQualities (enc : List Nat → Nat → Option (List Nat)) (data : List Nat)
    (budget : Int) : List Nat → Option (List Nat)
  | [] => none
  | quality :: rest =>
    match enc data quality with
    | none => tryQualities enc data budget rest
    | some compressed =>
      if (compressed.length : Int) ≤ budget ∨ quality = MinJPEGQuality then
        some compressed
      else tryQualities enc data budget rest

/-- Translation of `CompressImageIfNeeded` (`images.go:950-987`): non-PNG
declared MIME types are returned unchanged; PNG input runs the quality
ladder `[80, 60, 40]`, falling back to the original bytes when the ladder
yields nothing.  (The Go function also returns an `error` which is always
`nil`; it is dropped.) -/
def CompressImageIfNeeded (enc : List Nat → Nat → Option (List Nat))
    (data : List Nat) (mimeType : String) (budget : Int) : CompressImageResult :=
  let result : CompressImageResult :=
    ⟨data, mimeType, false, data.length, data.length⟩
  if mimeType ≠ "image/png" then result
  else
    match tryQualities enc data budget
        [DefaultJPEGQuality, DefaultJPEGQuality - JPEGQualityStep, MinJPEGQuality] with
    | some compressed => ⟨compressed, "image/jpeg", true, data.length, compressed.length⟩
    | none => result

/-- Written from the spec's words for C4 (claim-side definition): the result
of a successful transcoding at the lowest ladder level, accepted
unconditionally, else the original bytes unchanged. -/
def ladderSpecLevel40 (enc : List Nat → Nat → Option (List Nat))
    (data : List Nat) (mimeType : String) : CompressImageResult :=
  match enc data 40 with
  | some c => ⟨c, "image/jpeg", true, data.length, c.length⟩
  | none => ⟨data, mimeType, false, data.length, data.length⟩

/-- Written from the spec's words for C4 (claim-side definition): quality 60
is accepted exactly when it encodes and fits the remaining budget, otherwise
the ladder moves to quality 40. -/
def ladderSpecLevel60 (enc : List Nat → Nat → Option (List Nat))
    (data : List Nat) (mimeType : String) (budget : Int) : CompressImageResult :=
  match enc data 60 with
  | some c =>
    if (c.length : Int) ≤ budget then ⟨c, "image/jpeg", true, data.length, c.length⟩
    else ladderSpecLevel40 enc data mimeType
  | none => ladderSpecLevel40 enc data mimeType

/-- Written from the spec's words for C4 (claim-side definition): non-PNG
input is returned unchanged with `wasConverted = false`; PNG input tries
qualities 80, 60, 40 in strictly descending order, accepting the first
encoding that fits the remaining budget, accepting the quality-40 result
unconditionally, and returning the original bytes unchanged when nothing is
accepted. -/
def compressLadderSpec (enc : List Nat → Nat → Option (List Nat))
    (data : List Nat) (mimeType : String) (budget : Int) : CompressImageResult :=
  if mimeType ≠ "image/png" then ⟨data, mimeType, false, data.length, data.length⟩
  else
    match enc data 80 with
    | some c =>
      if (c.length : Int) ≤ budget then ⟨c, "image/jpeg", true, data.length, c.length⟩
      else ladderSpecLevel60 enc data mimeType budget
    | none => ladderSpecLevel60 enc data mimeType budget

/-- Codec oracle used by the `compress_requires_exact_png_mime` witness. -/
def encNever : List Nat → Nat → Option (List Nat) := fun _ _ => none

/-! ## `DownloadImage` (Bounded Fetcher, single item)

The authenticated transport `SlackFileDownloader.GetFileContext` is an
external collaborator; it is modelled by an oracle
`g : String → Except String (List Nat)` mapping a download URL to the bytes
written into the buffer, or to an error message.  The context/timeout
plumbing has no bearing on the data path and is not modelled. -/

/-- The authentication-failure message of `DownloadImage` (`images.go:668`). -/
def authFailureMsg : String :=
  "authentication failed: received HTML login page instead of image (browser tokens may not support file downloads)"

/-- The generic invalid-format message of `DownloadImage` (`images.go:670`). -/
def notValidImageMsg : String := "downloaded data is not a valid image format"

/-- Translation of `DownloadImage` (`images.go:642-674`): fetch into a
buffer (wrapping a fetch error), reject data over `MaxImageSize`, then
reject data that is not a recognized image — with the
authentication-failure message when `isHTMLContent` fires and the generic
message otherwise. -/
def DownloadImage (g : String → Except String (List Nat)) (url : String) :
    Except String (List Nat) :=
  match g url with
  | .error e => .error ("failed to download image: " ++ e)
  | .ok data =>
    if data.length > MaxImageSize then
      .error ("image size " ++ toString data.length ++
        " bytes exceeds maximum allowed size of " ++ toString MaxImageSize ++ " bytes")
    else if ¬ isValidImageData data then
      if isHTMLContent data then .error authFailureMsg
      else .error notValidImageMsg
    else .ok data

/-- Fetch oracle returning a 5-byte HTML fragment, for the C7
counterexample. -/
def fetchTinyHTMLStub : String → Except String (List Nat) :=
  fun _ => .ok (strBytes "<html")

/-- Login-page bytes used by the C7 witness. -/
def loginPageBytes : List Nat := strBytes "<html><body>login</body></html>"

/-- Fetch oracle returning a login page, for the C7 witness. -/
def fetchLoginStub : String → Except String (List Nat) :=
  fun _ => .ok loginPageBytes

/-! ## `DownloadImagesWithBudget` (Budgeted Assembler) -/

/-- `ImageInfo` (`images.go:455-462`). -/
structure ImageInfo where
  fileID : String
  name : String
  mimeType : String
  size : Int
  url : String
  msgTS : String
  deriving Repr, DecidableEq

/-- The dedup/lookup key: `FileID` if present, else the URL
(`images.go:833-836`). -/
def imageKey (img : ImageInfo) : String :=
  if img.fileID = "" then img.url else img.fileID

/-- Go map assignment `m[k] = v`, modelled extensionally on an association
list: any binding of `k` is dropped and the new one appended (Go map
iteration order is unspecified, so only the binding set matters). -/
def goMapSet (m : List (String × α)) (k : String) (v : α) : List (String × α) :=
  m.filter (fun p => p.1 ≠ k) ++ [(k, v)]

/-- The loop state of `DownloadImagesWithBudget` (`images.go:823-828`),
bundling the four accumulators and the two budget variables.  The Go
function returns `(imageData, mimeTypeOverrides, skippedImages, warnings)`;
this state carries exactly those plus `cumulativeSize` and
`budgetExceeded`. -/
structure BudgetState where
  imageData : List (String × List Nat)
  mimeTypeOverrides : List (String × String)
  skippedImages : List ImageInfo
  warnings : List String
  cumulativeSize : Int
  budgetExceeded : Bool
  deriving Repr, DecidableEq

/-- The initial loop state: empty maps and lists, zero committed bytes, flag
down. -/
def initialBudgetState : BudgetState := ⟨[], [], [], [], 0, false⟩

/-- The loop body of `DownloadImagesWithBudget` (`images.go:831-879`): skip
unconditionally once the flag is up; warn and skip on a declared size over
`MaxImageSize`; warn and skip on a fetch/validation error; otherwise
compress against the remaining budget, record a MIME override if transcoded,
and either trip the flag (when the bytes would overflow the budget) or
commit the bytes. -/
def processImage (g : String → Except String (List Nat))
    (enc : List Nat → Nat → Option (List Nat)) (budget : Int)
    (s : BudgetState) (img : ImageInfo) : BudgetState :=
  let key := imageKey img
  if s.budgetExceeded then
    { s with skippedImages := s.skippedImages ++ [img] }
  else if img.size > (MaxImageSize : Int) then
    { s with warnings := s.warnings ++
        ["Skipped image: image '" ++ img.name ++ "' size " ++ toString img.size ++
          " bytes exceeds limit"] }
  else
    match DownloadImage g img.url with
    | .error e =>
      { s with warnings := s.warnings ++ ["Skipped image: " ++ e] }
    | .ok data =>
      let remainingBudget := budget - s.cumulativeSize
      let compResult := CompressImageIfNeeded enc data img.mimeType remainingBudget
      let data := compResult.data
      let s := if compResult.wasConverted then
          { s with mimeTypeOverrides := goMapSet s.mimeTypeOverrides key compResult.mimeType }
        else s
      if s.cumulativeSize + (data.length : Int) > budget then
        { s with budgetExceeded := true, skippedImages := s.skippedImages ++ [img] }
      else
        { s with imageData := goMapSet s.imageData key data,
                 cumulativeSize := s.cumulativeSize + (data.length : Int) }

/-- Translation of `DownloadImagesWithBudget` (`images.go:813-882`):
truncate to `MaxImagesPerCall`, then fold the loop body over the references
in order starting from the empty state.  (The Go early return for an empty
input equals the fold over the empty list.) -/
def DownloadImagesWithBudget (g : String → Except String (List Nat))
    (enc : List Nat → Nat → Option (List Nat)) (images : List ImageInfo)
    (budget : Int) : BudgetState :=
  (images.take MaxImagesPerCall).foldl (processImage g enc budget) initialBudgetState

/-- The total byte length recorded in an included-images map. -/
def includedBytes (m : List (String × List Nat)) : Int :=
  (m.map (fun p => (p.2.length : Int))).sum

/-- Fetch oracle that fails every URL, used by budget-claim witnesses. -/
def fetchNotFound : String → Except String (List Nat) :=
  fun url => .error ("file not found: " ++ url)

/-- A small concrete reference used by budget-claim witnesses. -/
def imgSmall : ImageInfo :=
  ⟨"F001", "img1.png", "image/png", 100, "https://files.slack.com/F001", "123"⟩

/-- A loop state whose exceeded flag is already up. -/
def exceededState : BudgetState := ⟨[], [], [], [], 0, true⟩

/-- Fetch oracle returning a minimal valid PNG, for the C3 witness. -/
def fetchTinyPNG : String → Except String (List Nat) :=
  fun _ => .ok [0x89, 0x50, 0x4E, 0x47, 0x0D, 0x0A, 0x1A, 0x0A]

/-! ## The two-reference budget scenario (C8)

This mirrors the repository's own test
`TestUnitDownloadImagesWithBudget/"first image exceeds budget - all
skipped"` (`images_test.go:884-897`): declared sizes 2000 and 500, budget
1000, and a mock downloader serving PNG-magic-headed byte blobs of those
sizes.  Note the per-image hard ceiling in the code is the constant
`MaxImageSize = 3932160`; the `1000` of the scenario is the assembler
budget, which both declared sizes are far under the ceiling. -/

/-- The 8-byte PNG file header used by the repository's tests. -/
def pngHeaderBytes : List Nat := [0x89, 0x50, 0x4E, 0x47, 0x0D, 0x0A, 0x1A, 0x0A]

/-- A blob of `n` bytes starting with the PNG header (the tests' `makePNG`). -/
def mkPNGBytes (n : Nat) : List Nat := pngHeaderBytes ++ List.replicate (n - 8) 0

/-- First scenario reference: declared size 2000 (`images_test.go:886`). -/
def imgDeclared2000 : ImageInfo :=
  ⟨"F001", "img1.png", "", 2000, "https://files.slack.com/F001", ""⟩

/-- Second scenario reference: declared size 500 (`images_test.go:887`). -/
def imgDeclared500 : ImageInfo :=
  ⟨"F002", "img2.png", "", 500, "https://files.slack.com/F002", ""⟩

/-- The scenario's mock downloader (`images_test.go:890-893`). -/
def fetchScenario : String → Except String (List Nat) := fun url =>
  if url = "https://files.slack.com/F001" then .ok (mkPNGBytes 2000)
  else if url = "https://files.slack.com/F002" then .ok (mkPNGBytes 500)
  else .error ("file not found: " ++ url)

/-! ## `ExtractImagesFromAttachments` (Reference Locator, attachment path) -/

/-- The two `slack.Attachment` fields read by the extraction code. -/
structure Attachment where
  imageURL : String
  thumbURL : String
  deriving Repr, DecidableEq

/-- One loop iteration of `ExtractImagesFromAttachments`
(`images.go:558-593`), as the list of references it appends: the full-size
block first (append when `ImageURL` is non-empty, host-allowed and its
guessed MIME type is supported), then the thumbnail block, whose `continue`
guard skips it exactly when `ImageURL` is non-empty and host-allowed.  The
iteration's decisions never read the accumulated list, so the Go loop is the
concatenation of these per-attachment lists. -/
def attachmentImages (a : Attachment) (msgTS : String) : List ImageInfo :=
  let images : List ImageInfo := []
  let images :=
    if a.imageURL ≠ "" ∧ isAllowedImageHost a.imageURL then
      (if isImageMimeType (guessMimeTypeFromURL a.imageURL) then
        images ++ [⟨"", extractFilenameFromURL a.imageURL,
          guessMimeTypeFromURL a.imageURL, 0, a.imageURL, msgTS⟩]
      else images)
    else images
  if a.thumbURL ≠ "" ∧ isAllowedImageHost a.thumbURL then
    if a.imageURL ≠ "" ∧ isAllowedImageHost a.imageURL then images
    else if isImageMimeType (guessMimeTypeFromURL a.thumbURL) then
      images ++ [⟨"", extractFilenameFromURL a.thumbURL,
        guessMimeTypeFromURL a.thumbURL, 0, a.thumbURL, msgTS⟩]
    else images
  else images

/-- Translation of `ExtractImagesFromAttachments` (`images.go:555-596`):
fold the per-attachment appends over the attachment list in order. -/
def ExtractImagesFromAttachments (attachments : List Attachment)
    (msgTS : String) : List ImageInfo :=
  attachments.foldl (fun images a => images ++ attachmentImages a msgTS) []

/-- An attachment whose full-size URL is host-disallowed but whose thumbnail
is Slack-hosted, for the C5 counterexample. -/
def attackerAttachment : Attachment :=
  ⟨"https://evil.com/x.png", "https://files.slack.com/thumb.png"⟩

/-- An attachment with an allowed full-size URL and an allowed thumbnail,
for the C5 witness. -/
def fullAllowedAttachment : Attachment :=
  ⟨"https://files.slack.com/full.png", "https://files.slack.com/thumb.png"⟩

/-! ## Magic-byte classification as the spec states it (C6) -/

/-- Written from the claim's words for C6 (claim-side definition): accept
iff at least 8 bytes and one signature is present, where the PNG signature
is 8 fixed bytes (`89 50 4E 47 0D 0A 1A 0A`), JPEG is 3 fixed bytes, GIF is
the 3-byte `GIF` lead, and WebP is `RIFF` at offset 0 with `WEBP` at
offset 8. -/
def magicClassClaim (data : List Nat) : Bool :=
  if data.length < 8 then false
  else
    data.take 8 == [0x89, 0x50, 0x4E, 0x47, 0x0D, 0x0A, 0x1A, 0x0A] ||
    data.take 3 == [0xFF, 0xD8, 0xFF] ||
    data.take 3 == strBytes "GIF" ||
    (decide (12 ≤ data.length) && data.take 4 == strBytes "RIFF" &&
      (data.drop 8).take 4 == strBytes "WEBP")

/-! ## `DownloadImagesWithConcurrencyLimit` as a transition system (C9)

The pool path (`images.go:740-808`) runs one goroutine per reference; each
sends into a buffered channel `semaphore` of capacity
`MaxConcurrentDownloads` before its download and receives from it (via
`defer`) on completion, success or failure.  The download body and the
fan-in collector do not touch the channel, so the in-flight bound depends
only on the channel discipline, embedded here as an interleaving transition
system: each task is in one phase, the channel holds `sem` tokens, a send
blocks while the buffer is full (`sem < MaxConcurrentDownloads` guards the
acquire), and a receive needs a token (witnessed by the running task). -/

/-- The phases of one download goroutine. -/
inductive TaskPhase where
  | waiting
  | running
  | finished
  deriving Repr, DecidableEq

/-- An interleaving state: tokens in the semaphore channel, plus each
task's phase. -/
structure PoolState where
  sem : Nat
  tasks : List TaskPhase
  deriving Repr, DecidableEq

/-- The number of downloads in flight: tasks between their semaphore send
and their deferred receive. -/
def inFlight (s : PoolState) : Nat :=
  s.tasks.countP (fun p => p == TaskPhase.running)

/-- All goroutines launched, none past its semaphore send, channel empty. -/
def initialPoolState (n : Nat) : PoolState :=
  ⟨0, List.replicate n TaskPhase.waiting⟩

/-- One scheduler step: a waiting task's channel send completes (possible
only while the buffer has room), or a running task finishes — success or
failure — and its deferred receive returns the token. -/
inductive PoolStep : PoolState → PoolState → Prop where
  | acquire (s : PoolState) (i : Nat)
      (h : s.tasks.get? i = some TaskPhase.waiting)
      (hsem : s.sem < MaxConcurrentDownloads) :
      PoolStep s ⟨s.sem + 1, s.tasks.set i TaskPhase.running⟩
  | release (s : PoolState) (i : Nat)
      (h : s.tasks.get? i = some TaskPhase.running) :
      PoolStep s ⟨s.sem - 1, s.tasks.set i TaskPhase.finished⟩

/-- States reachable from `n` launched goroutines by any interleaving. -/
inductive PoolReachable (n : Nat) : PoolState → Prop where
  | init : PoolReachable n (initialPoolState n)
  | step {s t : PoolState} :
      PoolReachable n s → PoolStep s t → PoolReachable n t

/-! ## Claim theorems -/

/-- C1: `isAllowedImageHost` accepts a URL string iff it parses and its
hostname equals an allowlist entry exactly or ends with `"."` followed by an
entry (true-subdomain match); the substring attacks
`evil.com/files.slack.com/fake` (hostname `evil.com`) and
`files.slack.com.evil.com` are rejected, while the hosts `files.slack.com`
and `cdn.slack-edge.com` are accepted. -/
theorem allowedHost_iff_hostname_allowlisted :
    (∀ rawURL : String, isAllowedImageHost rawURL = true ↔
      ∃ host path, goURLParse rawURL = some (host, path) ∧
        (host ∈ allowedImageHosts ∨
          ∃ a ∈ allowedImageHosts, goHasSuffix host ("." ++ a) = true))
    ∧ isAllowedImageHost "https://files.slack.com/files/123/image.png" = true
    ∧ isAllowedImageHost "https://cdn.slack-edge.com/avatar.png" = true
    ∧ isAllowedImageHost "https://evil.com/files.slack.com/fake" = false
    ∧ isAllowedImageHost "https://files.slack.com.evil.com/image.png" = false := by
  refine ⟨?_, by decide, by decide, by decide, by decide⟩
  intro rawURL
  constructor
  · intro hacc
    unfold isAllowedImageHost at hacc
    cases h : goURLParse rawURL with
    | none => rw [h] at hacc; exact absurd hacc (by simp)
    | some pr =>
      obtain ⟨host, path⟩ := pr
      rw [h] at hacc
      dsimp only at hacc
      refine ⟨host, path, rfl, ?_⟩
      by_cases hc : allowedImageHosts.contains host = true
      · exact Or.inl (by simpa using hc)
      · rw [if_neg hc] at hacc
        exact Or.inr (by simpa [List.any_eq_true] using hacc)
  · rintro ⟨host, path, heq, hor⟩
    unfold isAllowedImageHost
    rw [heq]
    dsimp only
    rcases hor with hmem | ⟨a, ha, hsuf⟩
    · rw [if_pos (by simpa using hmem)]
    · by_cases hc : allowedImageHosts.contains host = true
      · rw [if_pos hc]
      · rw [if_neg hc]
        exact List.any_eq_true.mpr ⟨a, ha, hsuf⟩

/-- C4: `CompressImageIfNeeded` is a function of (bytes, declared MIME type,
budget) — given the deterministic codec oracle — and behaves exactly as the
descending-ladder specification `compressLadderSpec`: non-PNG unchanged with
`wasConverted = false`; PNG tries 80, 60, 40, accepts the first fit, accepts
quality 40 unconditionally, and falls back to the original bytes when every
level fails. -/
theorem compressImage_matches_ladder_spec
    (enc : List Nat → Nat → Option (List Nat)) (data : List Nat)
    (mimeType : String) (budget : Int) :
    CompressImageIfNeeded enc data mimeType budget =
      compressLadderSpec enc data mimeType budget := by
  by_cases hm : mimeType = "image/png"
  · subst hm
    cases h80 : enc data 80 <;> cases h60 : enc data 60 <;> cases h40 : enc data 40 <;>
      simp [CompressImageIfNeeded, compressLadderSpec, ladderSpecLevel60,
        ladderSpecLevel40, tryQualities, h80, h60, h40, MinJPEGQuality,
        DefaultJPEGQuality, JPEGQualityStep] <;>
      split_ifs <;> simp
  · simp [CompressImageIfNeeded, compressLadderSpec, hm]

/-- C10: `CompressImageIfNeeded` compares the declared MIME type to
`"image/png"` by exact string equality, without the trim/parameter-strip/
lowercase normalization of `isImageMimeType`: any other spelling of PNG —
such as `"image/png; charset=utf-8"` or `"IMAGE/PNG"`, both of which
`isImageMimeType` accepts — is returned unchanged with
`wasConverted = false`, for every byte input and budget. -/
theorem compress_requires_exact_png_mime
    (enc : List Nat → Nat → Option (List Nat)) (data : List Nat) (budget : Int)
    (mimeType : String) (h : mimeType ≠ "image/png") :
    ((CompressImageIfNeeded enc data mimeType budget).data = data
      ∧ (CompressImageIfNeeded enc data mimeType budget).wasConverted = false)
    ∧ (CompressImageIfNeeded enc data "image/png; charset=utf-8" budget).data = data
    ∧ (CompressImageIfNeeded enc data "image/png; charset=utf-8" budget).wasConverted = false
    ∧ (CompressImageIfNeeded enc data "IMAGE/PNG" budget).data = data
    ∧ (CompressImageIfNeeded enc data "IMAGE/PNG" budget).wasConverted = false
    ∧ isImageMimeType "image/png; charset=utf-8" = true
    ∧ isImageMimeType "IMAGE/PNG" = true := by
  refine ⟨⟨?_, ?_⟩, ?_, ?_, ?_, ?_, by decide, by decide⟩ <;>
    simp [CompressImageIfNeeded, h]

/-- Witness for C10 at a concrete non-normalized PNG spelling and concrete
bytes. -/
theorem compress_requires_exact_png_mime_witness :
    ("IMAGE/PNG" ≠ "image/png")
    ∧ (((CompressImageIfNeeded encNever [137, 80, 78, 71] "IMAGE/PNG" 0).data =
          [137, 80, 78, 71]
        ∧ (CompressImageIfNeeded encNever [137, 80, 78, 71] "IMAGE/PNG" 0).wasConverted = false)
      ∧ (CompressImageIfNeeded encNever [137, 80, 78, 71] "image/png; charset=utf-8" 0).data =
          [137, 80, 78, 71]
      ∧ (CompressImageIfNeeded encNever [137, 80, 78, 71] "image/png; charset=utf-8" 0).wasConverted = false
      ∧ (CompressImageIfNeeded encNever [137, 80, 78, 71] "IMAGE/PNG" 0).data = [137, 80, 78, 71]
      ∧ (CompressImageIfNeeded encNever [137, 80, 78, 71] "IMAGE/PNG" 0).wasConverted = false
      ∧ isImageMimeType "image/png; charset=utf-8" = true
      ∧ isImageMimeType "IMAGE/PNG" = true) :=
  ⟨by decide, compress_requires_exact_png_mime encNever [137, 80, 78, 71] 0 "IMAGE/PNG" (by decide)⟩

/-- C7 (amended): when the fetched bytes fail magic-byte classification,
`DownloadImage` returns the authentication-failure error exactly when
`isHTMLContent` fires — length at least 15, and either an opening marker in
the first `min 500 len` lowercased bytes, or (only when the length exceeds
20) a closing `</html>`/`</body>` in the last 20 bytes — and the generic
not-a-valid-image error otherwise; the two messages differ, so the caller
can tell them apart. -/
theorem downloadImage_error_classification
    (g : String → Except String (List Nat)) (url : String) (data : List Nat)
    (hfetch : g url = .ok data) (hsize : data.length ≤ MaxImageSize)
    (hvalid : isValidImageData data = false) :
    DownloadImage g url =
      .error (if isHTMLContent data then authFailureMsg else notValidImageMsg)
    ∧ authFailureMsg ≠ notValidImageMsg
    ∧ (isHTMLContent data = true ↔
        (15 ≤ data.length ∧ (hasHTMLMarkers data = true ∨
          (20 < data.length ∧ hasHTMLClosers data = true)))) := by
  refine ⟨?_, by decide, ?_⟩
  · unfold DownloadImage
    rw [hfetch]
    dsimp only
    have h1 : ¬ data.length > MaxImageSize := by omega
    rw [if_neg h1, hvalid]
    cases h : isHTMLContent data <;> simp [h]
  · by_cases h15 : data.length < 15
    · simp only [isHTMLContent, if_pos h15]
      constructor
      · intro h; exact absurd h (by simp)
      · intro ⟨h, _⟩; omega
    · have h15' : 15 ≤ data.length := by omega
      by_cases hm : hasHTMLMarkers data = true
      · simp [isHTMLContent, h15, hm, h15']
      · by_cases h20 : 20 < data.length
        · simp [isHTMLContent, h15, hm, h20, h15',
            Bool.not_eq_true (hasHTMLMarkers data) ▸ hm]
        · simp [isHTMLContent, h15, hm, h20]

/-- C7 counterexample: for the 5-byte body `"<html"`, the detection rule as
the claim states it fires (the lowercased head contains `<html`), yet the
code classifies the bytes as non-HTML (`len < 15` guard) and `DownloadImage`
returns the generic invalid-format error, not the authentication-failure
error. -/
theorem downloadImage_html_guard_counterexample :
    bytesContain (lowerBytes (strBytes "<html")) (strBytes "<html") = true
    ∧ isHTMLContent (strBytes "<html") = false
    ∧ DownloadImage fetchTinyHTMLStub "https://files.slack.com/x" =
        .error notValidImageMsg
    ∧ authFailureMsg ≠ notValidImageMsg :=
  ⟨by decide, by decide, rfl, by decide⟩

/-- Witness for C7 at a concrete login-page payload. -/
theorem downloadImage_error_classification_witness :
    (fetchLoginStub "u" = .ok loginPageBytes
      ∧ loginPageBytes.length ≤ MaxImageSize
      ∧ isValidImageData loginPageBytes = false)
    ∧ (DownloadImage fetchLoginStub "u" =
        .error (if isHTMLContent loginPageBytes then authFailureMsg else notValidImageMsg)
      ∧ authFailureMsg ≠ notValidImageMsg
      ∧ (isHTMLContent loginPageBytes = true ↔
          (15 ≤ loginPageBytes.length ∧ (hasHTMLMarkers loginPageBytes = true ∨
            (20 < loginPageBytes.length ∧ hasHTMLClosers loginPageBytes = true))))) :=
  ⟨⟨rfl, by decide, by decide⟩,
    downloadImage_error_classification fetchLoginStub "u" loginPageBytes rfl
      (by decide) (by decide)⟩

/-- Dropping map entries can only decrease the recorded byte total. -/
theorem includedBytes_filter_le (m : List (String × List Nat))
    (p : String × List Nat → Bool) :
    includedBytes (m.filter p) ≤ includedBytes m := by
  induction m with
  | nil => simp [includedBytes]
  | cons hd tl ih =>
    by_cases hp : p hd = true <;>
      simp only [includedBytes, List.filter_cons, hp, List.map_cons, List.sum_cons,
        if_true, if_false, Bool.false_eq_true] at ih ⊢ <;>
      omega

/-- A Go map assignment adds at most the new value's byte length to the
total. -/
theorem includedBytes_goMapSet (m : List (String × List Nat)) (k : String)
    (v : List Nat) :
    includedBytes (goMapSet m k v) ≤ includedBytes m + (v.length : Int) := by
  have h := includedBytes_filter_le m (fun p => p.1 ≠ k)
  simp only [goMapSet, includedBytes, List.map_append, List.sum_append] at h ⊢
  simp only [List.map_cons, List.map_nil, List.sum_cons, List.sum_nil]
  omega

/-- One assembler step preserves `includedBytes ≤ cumulativeSize ≤ budget`. -/
theorem processImage_invariant (g : String → Except String (List Nat))
    (enc : List Nat → Nat → Option (List Nat)) (budget : Int)
    (s : BudgetState) (img : ImageInfo)
    (h1 : includedBytes s.imageData ≤ s.cumulativeSize)
    (h2 : s.cumulativeSize ≤ budget) :
    includedBytes (processImage g enc budget s img).imageData ≤
        (processImage g enc budget s img).cumulativeSize
      ∧ (processImage g enc budget s img).cumulativeSize ≤ budget := by
  unfold processImage
  split
  · exact ⟨h1, h2⟩
  · split
    · exact ⟨h1, h2⟩
    · split
      · exact ⟨h1, h2⟩
      · next data heq =>
        dsimp only
        cases hw : (CompressImageIfNeeded enc data img.mimeType
            (budget - s.cumulativeSize)).wasConverted <;>
          simp only [hw, Bool.false_eq_true, if_false, if_true, ite_true, ite_false] <;>
          split <;> (try dsimp only)
        · exact ⟨h1, h2⟩
        · next hov =>
          have hg := includedBytes_goMapSet s.imageData (imageKey img)
            (CompressImageIfNeeded enc data img.mimeType (budget - s.cumulativeSize)).data
          exact ⟨by omega, by omega⟩
        · exact ⟨h1, h2⟩
        · next hov =>
          have hg := includedBytes_goMapSet s.imageData (imageKey img)
            (CompressImageIfNeeded enc data img.mimeType (budget - s.cumulativeSize)).data
          exact ⟨by omega, by omega⟩

/-- C2: the exceeded flag is sticky.  From any loop state with the flag up,
processing any remaining reference list only appends every reference to the
skipped list: the flag never returns to false, no fetch result is recorded,
and no warning, override, byte count or included image changes — regardless
of each reference's own size. -/
theorem budget_exceeded_sticky (g : String → Except String (List Nat))
    (enc : List Nat → Nat → Option (List Nat)) (budget : Int)
    (s : BudgetState) (imgs : List ImageInfo) (h : s.budgetExceeded = true) :
    imgs.foldl (processImage g enc budget) s =
      { s with skippedImages := s.skippedImages ++ imgs } := by
  induction imgs generalizing s with
  | nil => simp
  | cons img rest ih =>
    rw [List.foldl_cons]
    have hstep : processImage g enc budget s img =
        { s with skippedImages := s.skippedImages ++ [img] } := by
      unfold processImage
      rw [if_pos h]
    rw [hstep,
      ih { s with skippedImages := s.skippedImages ++ [img] } h]
    simp

/-- Witness for C2 at a concrete exceeded state and reference. -/
theorem budget_exceeded_sticky_witness :
    exceededState.budgetExceeded = true
    ∧ [imgSmall].foldl (processImage fetchNotFound encNever 1000) exceededState =
        { exceededState with
            skippedImages := exceededState.skippedImages ++ [imgSmall] } :=
  ⟨rfl, budget_exceeded_sticky fetchNotFound encNever 1000 exceededState [imgSmall] rfl⟩

/-- The fold of the assembler loop preserves the budget invariant. -/
theorem foldl_budget_invariant (g : String → Except String (List Nat))
    (enc : List Nat → Nat → Option (List Nat)) (budget : Int)
    (imgs : List ImageInfo) (s : BudgetState)
    (h1 : includedBytes s.imageData ≤ s.cumulativeSize)
    (h2 : s.cumulativeSize ≤ budget) :
    includedBytes (imgs.foldl (processImage g enc budget) s).imageData ≤
        (imgs.foldl (processImage g enc budget) s).cumulativeSize
      ∧ (imgs.foldl (processImage g enc budget) s).cumulativeSize ≤ budget := by
  induction imgs generalizing s with
  | nil => exact ⟨h1, h2⟩
  | cons img rest ih =>
    rw [List.foldl_cons]
    obtain ⟨h1', h2'⟩ := processImage_invariant g enc budget s img h1 h2
    exact ih _ h1' h2'

/-- C3: for every fetch oracle, codec oracle, reference list and nonnegative
budget, the total byte length of the images included by
`DownloadImagesWithBudget` never exceeds the budget — with no exception: the
assembler re-checks even a last-resort lowest-quality compression result
against the budget and skips it rather than commit an overflow. -/
theorem budget_total_within_budget (g : String → Except String (List Nat))
    (enc : List Nat → Nat → Option (List Nat)) (imgs : List ImageInfo)
    (budget : Int) (hb : 0 ≤ budget) :
    includedBytes (DownloadImagesWithBudget g enc imgs budget).imageData ≤ budget := by
  unfold DownloadImagesWithBudget
  obtain ⟨ha, hbd⟩ := foldl_budget_invariant g enc budget
    (imgs.take MaxImagesPerCall) initialBudgetState (by simp [includedBytes, initialBudgetState]) hb
  omega

/-- Witness for C3 at a concrete oracle, reference and budget. -/
theorem budget_total_within_budget_witness :
    (0 : Int) ≤ 1000
    ∧ includedBytes
        (DownloadImagesWithBudget fetchTinyPNG encNever [imgSmall] 1000).imageData ≤ 1000 :=
  ⟨by decide, budget_total_within_budget fetchTinyPNG encNever [imgSmall] 1000 (by decide)⟩

/-- The blob length of the tests' `makePNG n` for `n ≥ 8`. -/
theorem mkPNGBytes_length (n : Nat) (h : 8 ≤ n) : (mkPNGBytes n).length = n := by
  simp [mkPNGBytes, pngHeaderBytes]
  omega

/-- Every `makePNG` blob passes magic-byte classification. -/
theorem mkPNGBytes_valid (n : Nat) : isValidImageData (mkPNGBytes n) = true := by
  unfold isValidImageData
  simp [mkPNGBytes, pngHeaderBytes]

/-- `DownloadImage` succeeds on the scenario's first URL. -/
theorem scenario_download_first :
    DownloadImage fetchScenario "https://files.slack.com/F001" =
      .ok (mkPNGBytes 2000) := by
  unfold DownloadImage fetchScenario
  simp [mkPNGBytes_length 2000 (by omega), mkPNGBytes_valid, MaxImageSize]

/-- Processing the scenario's first reference sets the exceeded flag and
records no warning. -/
theorem scenario_step_first (enc : List Nat → Nat → Option (List Nat)) :
    processImage fetchScenario enc 1000 initialBudgetState imgDeclared2000 =
      { initialBudgetState with
          skippedImages := [imgDeclared2000], budgetExceeded := true } := by
  unfold processImage
  rw [show imgDeclared2000.url = "https://files.slack.com/F001" from rfl,
    scenario_download_first]
  simp [initialBudgetState, imgDeclared2000, MaxImageSize, CompressImageIfNeeded,
    mkPNGBytes_length 2000 (by omega)]

/-- The full scenario run: nothing included, both skipped, no warnings. -/
theorem scenario_assembler_run (enc : List Nat → Nat → Option (List Nat)) :
    DownloadImagesWithBudget fetchScenario enc
        [imgDeclared2000, imgDeclared500] 1000 =
      ⟨[], [], [imgDeclared2000, imgDeclared500], [], 0, true⟩ := by
  unfold DownloadImagesWithBudget
  rw [show ([imgDeclared2000, imgDeclared500].take MaxImagesPerCall) =
      [imgDeclared2000, imgDeclared500] from rfl]
  rw [List.foldl_cons, scenario_step_first enc, List.foldl_cons]
  have hstep2 : processImage fetchScenario enc 1000
      { initialBudgetState with
          skippedImages := [imgDeclared2000], budgetExceeded := true }
      imgDeclared500 =
      ⟨[], [], [imgDeclared2000, imgDeclared500], [], 0, true⟩ := by
    unfold processImage
    rw [if_pos rfl]
    rfl
  rw [hstep2]
  rfl

/-- C8 counterexample: in the scenario (first downloaded size 2000 over the
1000 budget, second 500 under it), the warning list is empty — the first
skip records no warning — and processing the first reference does set the
exceeded flag; both directly contradict the claim's last sentence. -/
theorem firstOverBudget_scenario_counterexample :
    (DownloadImagesWithBudget fetchScenario encNever
        [imgDeclared2000, imgDeclared500] 1000).warnings = []
    ∧ (processImage fetchScenario encNever 1000 initialBudgetState
        imgDeclared2000).budgetExceeded = true := by
  rw [scenario_assembler_run encNever, scenario_step_first encNever]
  exact ⟨rfl, rfl⟩

/-- C8 (amended): in the scenario both references are skipped and zero
images are included, as the claim says; but the first skip is a budget skip
— it records no warning and sets the exceeded flag (whose stickiness is what
skips the second reference, without consulting the fetch or codec oracle:
the outcome holds for every codec oracle `enc`). -/
theorem firstOverBudget_scenario (enc : List Nat → Nat → Option (List Nat)) :
    (DownloadImagesWithBudget fetchScenario enc
        [imgDeclared2000, imgDeclared500] 1000).imageData = []
    ∧ (DownloadImagesWithBudget fetchScenario enc
          [imgDeclared2000, imgDeclared500] 1000).skippedImages =
        [imgDeclared2000, imgDeclared500]
    ∧ (DownloadImagesWithBudget fetchScenario enc
          [imgDeclared2000, imgDeclared500] 1000).warnings = []
    ∧ (processImage fetchScenario enc 1000 initialBudgetState
          imgDeclared2000).budgetExceeded = true := by
  rw [scenario_assembler_run enc, scenario_step_first enc]
  exact ⟨rfl, rfl, rfl, rfl⟩

/-- C5 (amended): the thumbnail is suppressed only when the full-size URL is
non-empty AND host-allowed: such an attachment contributes at most its
full-size reference (exactly one when the guessed MIME type is supported,
none otherwise), and never a thumbnail-based reference. -/
theorem thumb_suppressed_when_full_allowed (a : Attachment) (msgTS : String)
    (h1 : a.imageURL ≠ "") (h2 : isAllowedImageHost a.imageURL = true) :
    ExtractImagesFromAttachments [a] msgTS =
      (if isImageMimeType (guessMimeTypeFromURL a.imageURL) then
        [⟨"", extractFilenameFromURL a.imageURL,
          guessMimeTypeFromURL a.imageURL, 0, a.imageURL, msgTS⟩]
      else []) := by
  unfold ExtractImagesFromAttachments attachmentImages
  simp [h1, h2]

/-- C5 counterexample: for an attachment whose full-size URL is non-empty
but host-disallowed, the code *does* produce a thumbnail-based reference —
the claim says none is produced. -/
theorem thumb_fallback_counterexample :
    attackerAttachment.imageURL ≠ ""
    ∧ isAllowedImageHost attackerAttachment.imageURL = false
    ∧ ExtractImagesFromAttachments [attackerAttachment] "123" =
        [⟨"", "thumb.png", "image/png", 0,
          "https://files.slack.com/thumb.png", "123"⟩] :=
  ⟨by decide, by decide, rfl⟩

/-- Witness for C5 (amended) at a concrete attachment carrying both URLs. -/
theorem thumb_suppressed_when_full_allowed_witness :
    (fullAllowedAttachment.imageURL ≠ ""
      ∧ isAllowedImageHost fullAllowedAttachment.imageURL = true)
    ∧ ExtractImagesFromAttachments [fullAllowedAttachment] "123" =
        (if isImageMimeType (guessMimeTypeFromURL fullAllowedAttachment.imageURL) then
          [⟨"", extractFilenameFromURL fullAllowedAttachment.imageURL,
            guessMimeTypeFromURL fullAllowedAttachment.imageURL, 0,
            fullAllowedAttachment.imageURL, "123"⟩]
        else []) :=
  ⟨⟨by decide, by decide⟩,
    thumb_suppressed_when_full_allowed fullAllowedAttachment "123"
      (by decide) (by decide)⟩

/-- C6 counterexample: a buffer carrying the PNG 4-byte lead-in but not the
full 8-byte PNG signature is accepted by the code, while the classification
the claim describes rejects it. -/
theorem magic_signature_counterexample :
    isValidImageData [0x89, 0x50, 0x4E, 0x47, 0, 0, 0, 0] = true
    ∧ magicClassClaim [0x89, 0x50, 0x4E, 0x47, 0, 0, 0, 0] = false :=
  ⟨by decide, by decide⟩

/-- C6 (amended): `isValidImageData` accepts exactly the buffers of at least
8 bytes whose head matches one of the signatures, with the PNG signature
checked as its first 4 bytes only (`89 50 4E 47`), JPEG as 3 bytes, GIF as
the 3-byte `GIF` lead, and WebP as `RIFF` at offset 0 with `WEBP` at offset
8 (requiring at least 12 bytes); every buffer shorter than 8 bytes is
invalid. -/
theorem isValidImageData_iff_signatures (data : List Nat) :
    isValidImageData data = true ↔
      (8 ≤ data.length ∧
        (data.take 4 = [0x89, 0x50, 0x4E, 0x47] ∨
         data.take 3 = [0xFF, 0xD8, 0xFF] ∨
         data.take 3 = strBytes "GIF" ∨
         (12 ≤ data.length ∧ data.take 4 = strBytes "RIFF" ∧
           (data.drop 8).take 4 = strBytes "WEBP"))) := by
  unfold isValidImageData
  by_cases h8 : data.length < 8
  · rw [if_pos h8]
    simp only [Bool.false_eq_true, false_iff, not_and]
    intro h
    omega
  · rw [if_neg h8]
    have hlen : 8 ≤ data.length := by omega
    rcases data with _ | ⟨b0, data⟩
    · simp at hlen
    rcases data with _ | ⟨b1, data⟩
    · simp at hlen
    rcases data with _ | ⟨b2, data⟩
    · simp at hlen
    rcases data with _ | ⟨b3, data⟩
    · simp at hlen
    simp only [List.length_cons] at hlen h8 ⊢
    simp only [List.getD_cons_zero, List.getD_cons_succ, List.take_succ_cons,
      List.take_zero, List.drop_succ_cons, Bool.if_true_left, Bool.or_false,
      Bool.or_eq_true, Bool.and_eq_true, beq_iff_eq, decide_eq_true_eq,
      List.cons.injEq, and_true, and_assoc, strBytes]
    constructor
    · rintro (h | h | ⟨h6, h⟩ | ⟨h12, h, hw⟩)
      · exact ⟨by omega, Or.inl h⟩
      · exact ⟨by omega, Or.inr (Or.inl h)⟩
      · exact ⟨by omega, Or.inr (Or.inr (Or.inl h))⟩
      · exact ⟨by omega, Or.inr (Or.inr (Or.inr ⟨by omega, h, hw⟩))⟩
    · rintro ⟨hl, (h | h | h | ⟨h12, h, hw⟩)⟩
      · exact Or.inl h
      · exact Or.inr (Or.inl h)
      · exact Or.inr (Or.inr (Or.inl ⟨by omega, h⟩))
      · exact Or.inr (Or.inr (Or.inr ⟨by omega, h, hw⟩))

/-- Setting one list position trades the old element's count contribution
for the new one's. -/
theorem countP_set_get? (p : TaskPhase → Bool) (l : List TaskPhase)
    (i : Nat) (a b : TaskPhase) (h : l.get? i = some a) :
    (l.set i b).countP p + (if p a then 1 else 0) =
      l.countP p + (if p b then 1 else 0) := by
  induction l generalizing i with
  | nil => simp at h
  | cons hd tl ih =>
    cases i with
    | zero =>
      simp only [List.get?] at h
      injection h with h
      subst h
      simp [List.countP_cons]
      omega
    | succ i =>
      simp only [List.get?] at h
      have := ih i h
      simp [List.countP_cons]
      omega

/-- A fresh pool has nothing in flight. -/
theorem countP_running_replicate_waiting (n : Nat) :
    (List.replicate n TaskPhase.waiting).countP
      (fun p => p == TaskPhase.running) = 0 := by
  induction n with
  | zero => rfl
  | succ n ih => simp [List.replicate_succ, List.countP_cons, ih]

/-- The pool invariant: the in-flight count always equals the semaphore's
token count, which never exceeds the capacity. -/
theorem poolReachable_invariant (n : Nat) (s : PoolState)
    (h : PoolReachable n s) :
    inFlight s = s.sem ∧ s.sem ≤ MaxConcurrentDownloads := by
  induction h with
  | init =>
    constructor
    · simp [inFlight, initialPoolState, countP_running_replicate_waiting]
    · simp [initialPoolState, MaxConcurrentDownloads]
  | step hreach hstep ih =>
    rename_i s t
    obtain ⟨ih1, ih2⟩ := ih
    cases hstep with
    | acquire i hget hsem =>
      have hc := countP_set_get? (fun p => p == TaskPhase.running)
        s.tasks i TaskPhase.waiting TaskPhase.running hget
      simp only [inFlight] at ih1 ⊢
      simp at hc
      exact ⟨by omega, by omega⟩
    | release i hget =>
      have hc := countP_set_get? (fun p => p == TaskPhase.running)
        s.tasks i TaskPhase.running TaskPhase.finished hget
      simp only [inFlight] at ih1 ⊢
      simp at hc
      exact ⟨by omega, by omega⟩

/-- C9: over every interleaving of the pool path's goroutines, the number of
downloads in flight never exceeds `MaxConcurrentDownloads` (3): a task
acquires a semaphore token before starting its download and releases it on
completion, success or failure, and the buffered channel admits at most 3
tokens. -/
theorem pool_inflight_never_exceeds_cap (n : Nat) (s : PoolState)
    (h : PoolReachable n s) : inFlight s ≤ MaxConcurrentDownloads := by
  obtain ⟨h1, h2⟩ := poolReachable_invariant n s h
  omega

/-- Witness for C9: a concrete reachable state of a five-task pool with one
download in flight. -/
theorem pool_inflight_never_exceeds_cap_witness :
    PoolReachable 5 ⟨1, (List.replicate 5 TaskPhase.waiting).set 0 TaskPhase.running⟩
    ∧ inFlight ⟨1, (List.replicate 5 TaskPhase.waiting).set 0 TaskPhase.running⟩ ≤
        MaxConcurrentDownloads := by
  have h : PoolReachable 5
      ⟨1, (List.replicate 5 TaskPhase.waiting).set 0 TaskPhase.running⟩ :=
    PoolReachable.step PoolReachable.init
      (PoolStep.acquire (initialPoolState 5) 0 (by decide) (by decide))
  exact ⟨h, pool_inflight_never_exceeds_cap 5 _ h⟩

end SlackImages
